import Mathlib

/-!
Verification development for a UDP-based dual-channel reliable messaging
transport.  The definitions below are a shallow embedding of the Python
sources: the packet codec (`src/core/packet.py`), the receiver-side reorder
buffer (`src/reliability/reorder_buffer.py`), the sender-side reliable
channel (`src/reliability/reliable_channel.py`) and the metrics snapshot of
the endpoint API (`src/core/game_net_api.py`).  Machine integers are
modelled as `Nat` with explicit `% 2 ^ w` where the code wraps; wall-clock
times are modelled as `ℚ`; Python dictionaries are modelled as association
lists with insertion-order update semantics; socket sends are modelled as
values returned by the transition functions.
-/

/-! ## Constants (src/core/constants.py) -/

def HEADER_SIZE : Nat := 7
def CHANNEL_RELIABLE : Nat := 0
def CHANNEL_UNRELIABLE : Nat := 1
def RETRANSMIT_TIMEOUT : ℚ := 15 / 100
def MAX_RETRANSMITS : Nat := 12
def REORDER_BUFFER_SIZE : Nat := 500
def REORDER_TIMEOUT : ℚ := 2
def DUP_ACK_THRESHOLD : Nat := 3

/-! ## Association lists modelling Python dictionaries

`alLookup` is `d[k]` / `k in d`; `alSet` is `d[k] = v` (updates the value in
place when the key is present, appends otherwise, matching `dict`
insertion-order semantics); `alErase` is `del d[k]`. -/

def alLookup {κ α : Type} [DecidableEq κ] : List (κ × α) → κ → Option α
  | [], _ => none
  | (k', v) :: t, k => if k' = k then some v else alLookup t k

def alSet {κ α : Type} [DecidableEq κ] : List (κ × α) → κ → α → List (κ × α)
  | [], k, v => [(k, v)]
  | (k', v') :: t, k, v => if k' = k then (k, v) :: t else (k', v') :: alSet t k v

def alErase {κ α : Type} [DecidableEq κ] : List (κ × α) → κ → List (κ × α)
  | [], _ => []
  | (k', v) :: t, k => if k' = k then alErase t k else (k', v) :: alErase t k

/-! ## UTF-8 codec

Python's strict UTF-8 codec, used by `str.encode('utf-8')` in
`GamePacket.to_bytes` and `bytes.decode('utf-8')` in
`GamePacket.from_bytes`.  A Python `str` is modelled as its list of code
points.  `utf8Decode` accepts exactly well-formed UTF-8: no continuation
bytes out of place, no overlong forms, no surrogates, nothing above
U+10FFFF.  `utf8EncodeChar` gives the byte sequence of one scalar value. -/

def isContByte (b : Nat) : Bool := decide (128 ≤ b) && decide (b < 192)

/-- Decode one UTF-8 scalar value: lead byte `b`, following bytes `rest`.
Returns the code point and the bytes remaining after it, or `none` when the
input is not well-formed strict UTF-8 at this position (stray continuation
byte, overlong form, surrogate, or a value above U+10FFFF). -/
def utf8DecodeOne (b : Nat) (rest : List Nat) : Option (Nat × List Nat) :=
  if b < 128 then some (b, rest)
  else if b < 194 then none
  else if b < 224 then
    match rest with
    | c1 :: r =>
      if isContByte c1 then some ((b - 192) * 64 + (c1 - 128), r) else none
    | [] => none
  else if b < 240 then
    match rest with
    | c1 :: c2 :: r =>
      if isContByte c1 && isContByte c2 then
        let cp := (b - 224) * 4096 + (c1 - 128) * 64 + (c2 - 128)
        if 2048 ≤ cp ∧ ¬(55296 ≤ cp ∧ cp ≤ 57343) then some (cp, r) else none
      else none
    | _ => none
  else if b < 245 then
    match rest with
    | c1 :: c2 :: c3 :: r =>
      if isContByte c1 && isContByte c2 && isContByte c3 then
        let cp := (b - 240) * 262144 + (c1 - 128) * 4096 + (c2 - 128) * 64 + (c3 - 128)
        if 65536 ≤ cp ∧ cp ≤ 1114111 then some (cp, r) else none
      else none
    | _ => none
  else none

/-- Decode a whole byte list; `fuel` only bounds the recursion and every
step consumes at least one byte, so `fuel = length` reproduces the
unbounded loop. -/
def utf8DecodeGo : Nat → List Nat → Option (List Nat)
  | _, [] => some []
  | 0, _ :: _ => none
  | fuel + 1, b :: rest =>
    match utf8DecodeOne b rest with
    | none => none
    | some (cp, r) => (utf8DecodeGo fuel r).map (cp :: ·)

def utf8Decode (data : List Nat) : Option (List Nat) :=
  utf8DecodeGo data.length data

/-- A Unicode scalar value: a code point encodable by `str.encode('utf-8')`. -/
def ScalarCp (cp : Nat) : Prop := cp < 1114112 ∧ ¬(55296 ≤ cp ∧ cp ≤ 57343)

instance (cp : Nat) : Decidable (ScalarCp cp) := by
  unfold ScalarCp; infer_instance

def utf8EncodeChar (cp : Nat) : List Nat :=
  if cp < 128 then [cp]
  else if cp < 2048 then [192 + cp / 64, 128 + cp % 64]
  else if cp < 65536 then [224 + cp / 4096, 128 + cp / 64 % 64, 128 + cp % 64]
  else [240 + cp / 262144, 128 + cp / 4096 % 64, 128 + cp / 64 % 64, 128 + cp % 64]

def utf8Encode (s : List Nat) : List Nat := (s.map utf8EncodeChar).flatten

/-! ## Packet codec (src/core/packet.py) -/

/-- A `GamePacket`: `payload` is the Python `str` as a list of code points. -/
structure GamePacket where
  channel_type : Nat
  seq_no : Nat
  payload : List Nat
  timestamp : Nat
deriving DecidableEq

/-- `GamePacket.to_bytes`: the 7-byte header (channel, big-endian 16-bit seq,
big-endian 32-bit timestamp, each byte masked with `& 0xFF` as in the source)
followed by the UTF-8 encoding of the payload.  Models the successful case of
`header + self.payload.encode('utf-8')`. -/
def GamePacket.to_bytes (p : GamePacket) : List Nat :=
  [p.channel_type,
   p.seq_no / 256 % 256,
   p.seq_no % 256,
   p.timestamp / 16777216 % 256,
   p.timestamp / 65536 % 256,
   p.timestamp / 256 % 256,
   p.timestamp % 256] ++ utf8Encode p.payload

/-- Result of `GamePacket.from_bytes`: the method returns `None` for a short
datagram, returns a packet on success, and raises `UnicodeDecodeError` when
the payload bytes are not valid UTF-8 (`raises` models the exception
escaping the method). -/
inductive FromBytesResult where
  | ok (p : GamePacket)
  | nothing
  | raises
deriving DecidableEq

/-- `GamePacket.from_bytes` translated from the source: length check, header
field extraction (`data[1] << 8 | data[2]` etc.), then
`data[HEADER_SIZE:].decode('utf-8')`. -/
def GamePacket.from_bytes (data : List Nat) : FromBytesResult :=
  if data.length < HEADER_SIZE then .nothing
  else
    match utf8Decode (data.drop HEADER_SIZE) with
    | none => .raises
    | some payload =>
      .ok { channel_type := data.getD 0 0
            seq_no := (data.getD 1 0) * 256 + data.getD 2 0
            payload := payload
            timestamp := (data.getD 3 0) * 16777216 + (data.getD 4 0) * 65536 +
              (data.getD 5 0) * 256 + data.getD 6 0 }

/-! ## Reorder buffer (src/reliability/reorder_buffer.py)

The buffer dictionary `{seq_no: (packet, timestamp)}` is an association
list.  The injected duplicate-ACK callback is modelled by the flag
`has_dup_ack_cb` together with the list `dup_acks_sent` recording the
sequence numbers it was invoked with.  `last_acked` is an integer because it
is initialised to `-1`. -/

structure ReorderBuffer where
  max_size : Nat
  expected_seq : Nat
  buffer : List (Nat × GamePacket × ℚ)
  delivered_count : Nat
  reordered_count : Nat
  skipped_count : Nat
  gap_start_time : Option ℚ
  last_acked : ℤ
  has_dup_ack_cb : Bool
  dup_ack_count : Nat
  dup_acks_sent : List ℤ
deriving DecidableEq

/-- `ReorderBuffer._is_ahead`, verbatim from the source (the two wraparound
cases on `expected_seq`). -/
def isAhead (expected_seq seq_no : Nat) : Bool :=
  if expected_seq < 32768 then
    decide (expected_seq < seq_no) && decide (seq_no < expected_seq + 32768)
  else
    decide (expected_seq < seq_no) || decide (seq_no < expected_seq - 32768)

/-- The `while self.expected_seq in self.buffer` drain loop shared by the
timeout sweep, the in-order branch of `add_packet` and `check_timeout`.
Returns `(delivered packets, new expected_seq, new buffer, packets drained)`.
`fuel` bounds the iteration count; every iteration removes one buffer entry,
so `buffer.length` fuel reproduces the unbounded loop. -/
def drainGo (fuel : Nat) (e : Nat) (buf : List (Nat × GamePacket × ℚ)) :
    List GamePacket × Nat × List (Nat × GamePacket × ℚ) × Nat :=
  match fuel with
  | 0 => ([], e, buf, 0)
  | fuel + 1 =>
    match alLookup buf e with
    | none => ([], e, buf, 0)
    | some (pkt, _) =>
      let r := drainGo fuel ((e + 1) % 65536) (alErase buf e)
      (pkt :: r.1, r.2.1, r.2.2.1, r.2.2.2 + 1)

/-- Step 1 of `ReorderBuffer.add_packet` (lines 49-62): if the gap timer is
running (`if self.gap_start_time and ...`, so a stored `0` time is falsy)
and has exceeded `REORDER_TIMEOUT`, skip the missing packet and drain the
now-ready buffered packets. -/
def ReorderBuffer.timeoutSweep (rb : ReorderBuffer) (now : ℚ) :
    List GamePacket × ReorderBuffer :=
  match rb.gap_start_time with
  | some g =>
    if g ≠ 0 ∧ REORDER_TIMEOUT ≤ now - g then
      let r := drainGo rb.buffer.length ((rb.expected_seq + 1) % 65536) rb.buffer
      (r.1, { rb with
              skipped_count := rb.skipped_count + 1
              expected_seq := r.2.1
              gap_start_time := none
              buffer := r.2.2.1
              delivered_count := rb.delivered_count + r.2.2.2 })
    else ([], rb)
  | none => ([], rb)

/-- Step 2 of `ReorderBuffer.add_packet` (lines 64-106): classify `seq_no`
against `expected_seq` as equal / ahead / behind and act accordingly. -/
def ReorderBuffer.classify (rb : ReorderBuffer) (now : ℚ) (seq_no : Nat)
    (packet : GamePacket) : List GamePacket × ReorderBuffer :=
  if seq_no = rb.expected_seq then
    let r := drainGo rb.buffer.length ((rb.expected_seq + 1) % 65536) rb.buffer
    (packet :: r.1,
     { rb with
       expected_seq := r.2.1
       buffer := r.2.2.1
       delivered_count := rb.delivered_count + 1 + r.2.2.2
       reordered_count := rb.reordered_count + r.2.2.2
       gap_start_time := none
       last_acked := (seq_no : ℤ) })
  else if isAhead rb.expected_seq seq_no then
    if rb.buffer.length < rb.max_size then
      if alLookup rb.buffer seq_no = none then
        let rb1 : ReorderBuffer := { rb with buffer := alSet rb.buffer seq_no (packet, now) }
        let rb2 : ReorderBuffer :=
          if rb1.gap_start_time = none then { rb1 with gap_start_time := some now } else rb1
        if rb2.has_dup_ack_cb ∧ 0 ≤ rb2.last_acked then
          ([], { rb2 with
                 dup_acks_sent := rb2.dup_acks_sent ++ [rb2.last_acked]
                 dup_ack_count := rb2.dup_ack_count + 1 })
        else ([], rb2)
      else ([], rb)
    else ([], rb)
  else ([], rb)

/-- `ReorderBuffer.add_packet`: the timeout sweep followed by
classification; `ready_packets` accumulates across both. -/
def ReorderBuffer.add_packet (rb : ReorderBuffer) (now : ℚ) (seq_no : Nat)
    (packet : GamePacket) : List GamePacket × ReorderBuffer :=
  let r1 := rb.timeoutSweep now
  let r2 := r1.2.classify now seq_no packet
  (r1.1 ++ r2.1, r2.2)

/-- `ReorderBuffer.check_timeout` (lines 120-143), translated on its own
from its own lines: gap-timer check, skip, and drain of ready packets. -/
def ReorderBuffer.check_timeout (rb : ReorderBuffer) (now : ℚ) :
    List GamePacket × ReorderBuffer :=
  match rb.gap_start_time with
  | some g =>
    if g ≠ 0 ∧ REORDER_TIMEOUT ≤ now - g then
      let r := drainGo rb.buffer.length ((rb.expected_seq + 1) % 65536) rb.buffer
      (r.1, { rb with
              skipped_count := rb.skipped_count + 1
              expected_seq := r.2.1
              gap_start_time := none
              buffer := r.2.2.1
              delivered_count := rb.delivered_count + r.2.2.2 })
    else ([], rb)
  | none => ([], rb)

/-- `ReorderBuffer.reset` (lines 155-160): exactly the four assignments in
the source, nothing else. -/
def ReorderBuffer.reset (rb : ReorderBuffer) : ReorderBuffer :=
  { rb with expected_seq := 0, buffer := [], delivered_count := 0, reordered_count := 0 }

/-! ## Reliable channel (src/reliability/reliable_channel.py)

Destinations are abstracted to `Nat`; packet bytes are `List Nat`.  A
socket send `sendto(data, dest)` is modelled by the pair `(data, dest)`
appearing in the list of sends returned by a transition. -/

structure PendingPacket where
  packet_data : List Nat
  seq_no : Nat
  destination : Nat
  send_time : ℚ
  retry_count : Nat
  acked : Bool
deriving DecidableEq

structure ReliableChannel where
  pending_packets : List (Nat × PendingPacket)
  dup_ack_count : List (Nat × Nat)
  stats_sent : Nat
  stats_acked : Nat
  stats_retransmitted : Nat
  stats_failed : Nat
  stats_total_retries : Nat
  stats_fast_retransmits : Nat
deriving DecidableEq

/-- `ReliableChannel.handle_duplicate_ack` (lines 93-138): bump the
duplicate-ACK count for `ack_seq_no` (created at 0 when absent), and at
`DUP_ACK_THRESHOLD` fast-retransmit `(ack_seq_no + 1) % 65536` when it is
pending, unacked and under the retry budget.  Returns the new channel state
and the list of socket sends performed. -/
def ReliableChannel.handle_duplicate_ack (ch : ReliableChannel) (now : ℚ)
    (ack_seq_no : Nat) : ReliableChannel × List (List Nat × Nat) :=
  let dup_count := (alLookup ch.dup_ack_count ack_seq_no).getD 0 + 1
  let ch1 : ReliableChannel :=
    { ch with dup_ack_count := alSet ch.dup_ack_count ack_seq_no dup_count }
  if DUP_ACK_THRESHOLD ≤ dup_count then
    let missing_seq := (ack_seq_no + 1) % 65536
    match alLookup ch1.pending_packets missing_seq with
    | some packet =>
      if packet.acked = false ∧ packet.retry_count < MAX_RETRANSMITS then
        ({ ch1 with
           pending_packets := alSet ch1.pending_packets missing_seq
             { packet with retry_count := packet.retry_count + 1, send_time := now }
           stats_fast_retransmits := ch1.stats_fast_retransmits + 1
           stats_retransmitted := ch1.stats_retransmitted + 1
           stats_total_retries := ch1.stats_total_retries + 1
           dup_ack_count := alSet ch1.dup_ack_count ack_seq_no 0 },
         [(packet.packet_data, packet.destination)])
      else (ch1, [])
    | none => (ch1, [])
  else (ch1, [])

/-- One pass of the `for seq_no, packet in list(self.pending_packets.items())`
loop of `ReliableChannel._retransmission_timer` (lines 149-166), fused with
the `_retransmit_packet` calls that follow it (the retry list holds
references into `pending_packets`, so the retry-count bump and timer reset
land back in the map).  Returns
`(new pending map, socket sends, failed delta, retransmit delta)`. -/
def sweepPending (now : ℚ) :
    List (Nat × PendingPacket) →
      List (Nat × PendingPacket) × List (List Nat × Nat) × Nat × Nat
  | [] => ([], [], 0, 0)
  | (seq_no, packet) :: rest =>
    let r := sweepPending now rest
    if packet.acked then ((seq_no, packet) :: r.1, r.2.1, r.2.2.1, r.2.2.2)
    else if RETRANSMIT_TIMEOUT ≤ now - packet.send_time then
      if packet.retry_count < MAX_RETRANSMITS then
        ((seq_no,
          { packet with retry_count := packet.retry_count + 1, send_time := now }) :: r.1,
         (packet.packet_data, packet.destination) :: r.2.1, r.2.2.1, r.2.2.2 + 1)
      else (r.1, r.2.1, r.2.2.1 + 1, r.2.2.2)
    else ((seq_no, packet) :: r.1, r.2.1, r.2.2.1, r.2.2.2)

/-- One iteration of the retransmission-timer thread over the whole pending
map, with the statistics updates of lines 161 and 180-181. -/
def ReliableChannel.timerSweep (ch : ReliableChannel) (now : ℚ) :
    ReliableChannel × List (List Nat × Nat) :=
  let r := sweepPending now ch.pending_packets
  ({ ch with
     pending_packets := r.1
     stats_failed := ch.stats_failed + r.2.2.1
     stats_retransmitted := ch.stats_retransmitted + r.2.2.2
     stats_total_retries := ch.stats_total_retries + r.2.2.2 }, r.2.1)

/-! ## Metrics snapshot (src/core/game_net_api.py)

The `self.metrics` dictionary of `GameNetAPI.__init__` and the snapshot
built by `get_metrics`.  Metric values are `ℚ` because the snapshot adds the
fractional `avg_latency` and `delivery_ratio` entries. -/

structure GameNetMetrics where
  reliable_sent : Nat
  unreliable_sent : Nat
  reliable_received : Nat
  unreliable_received : Nat
  acks_sent : Nat
  acks_received : Nat
  total_latency : Nat
  latency_count : Nat
  packets_reordered : Nat
  retransmissions : Nat
deriving DecidableEq

/-- `GameNetAPI.get_metrics` (lines 191-223): copy the base metrics dict,
merge in the reliable-channel stats and reorder-buffer stats, then append
the average latency and delivery ratio. -/
def get_metrics (m : GameNetMetrics) (ch : ReliableChannel) (rb : ReorderBuffer) :
    List (String × ℚ) :=
  let base : List (String × ℚ) :=
    [("reliable_sent", m.reliable_sent), ("unreliable_sent", m.unreliable_sent),
     ("reliable_received", m.reliable_received),
     ("unreliable_received", m.unreliable_received),
     ("acks_sent", m.acks_sent), ("acks_received", m.acks_received),
     ("total_latency", m.total_latency), ("latency_count", m.latency_count),
     ("packets_reordered", m.packets_reordered),
     ("retransmissions", m.retransmissions)]
  let m1 := alSet base "packets_acked" (ch.stats_acked : ℚ)
  let m2 := alSet m1 "packets_retransmitted" (ch.stats_retransmitted : ℚ)
  let m3 := alSet m2 "packets_failed" (ch.stats_failed : ℚ)
  let m4 := alSet m3 "total_retry_attempts" (ch.stats_total_retries : ℚ)
  let m5 := alSet m4 "packets_reordered" (rb.reordered_count : ℚ)
  let m6 := alSet m5 "packets_buffered" (rb.buffer.length : ℚ)
  let m7 := alSet m6 "avg_latency"
    (if 0 < m.latency_count then (m.total_latency : ℚ) / m.latency_count else 0)
  let m8 := alSet m7 "delivery_ratio"
    (if 0 < m.reliable_sent + m.unreliable_sent then
       ((m.reliable_received : ℚ) + m.unreliable_received) /
         ((m.reliable_sent : ℚ) + m.unreliable_sent) * 100
     else 0)
  m8

/-! ## Metrics-snapshot lemmas -/

/-- The snapshot built by `get_metrics`, written out: the ten base entries
(with `packets_reordered` overwritten from the reorder buffer) followed by
the seven appended entries. -/
lemma get_metrics_eq (m : GameNetMetrics) (ch : ReliableChannel) (rb : ReorderBuffer) :
    get_metrics m ch rb =
      [("reliable_sent", (m.reliable_sent : ℚ)), ("unreliable_sent", (m.unreliable_sent : ℚ)),
       ("reliable_received", (m.reliable_received : ℚ)),
       ("unreliable_received", (m.unreliable_received : ℚ)),
       ("acks_sent", (m.acks_sent : ℚ)), ("acks_received", (m.acks_received : ℚ)),
       ("total_latency", (m.total_latency : ℚ)), ("latency_count", (m.latency_count : ℚ)),
       ("packets_reordered", (rb.reordered_count : ℚ)),
       ("retransmissions", (m.retransmissions : ℚ)),
       ("packets_acked", (ch.stats_acked : ℚ)),
       ("packets_retransmitted", (ch.stats_retransmitted : ℚ)),
       ("packets_failed", (ch.stats_failed : ℚ)),
       ("total_retry_attempts", (ch.stats_total_retries : ℚ)),
       ("packets_buffered", (rb.buffer.length : ℚ)),
       ("avg_latency",
         if 0 < m.latency_count then (m.total_latency : ℚ) / m.latency_count else 0),
       ("delivery_ratio",
         if 0 < m.reliable_sent + m.unreliable_sent then
           ((m.reliable_received : ℚ) + m.unreliable_received) /
             ((m.reliable_sent : ℚ) + m.unreliable_sent) * 100
         else 0)] := rfl

def mC9 : GameNetMetrics :=
  { reliable_sent := 4, unreliable_sent := 0, reliable_received := 3,
    unreliable_received := 0, acks_sent := 0, acks_received := 3,
    total_latency := 30, latency_count := 3, packets_reordered := 0,
    retransmissions := 0 }

def chC9 : ReliableChannel :=
  { pending_packets := [], dup_ack_count := [], stats_sent := 4, stats_acked := 3,
    stats_retransmitted := 2, stats_failed := 1, stats_total_retries := 2,
    stats_fast_retransmits := 1 }

def rbC9 : ReorderBuffer :=
  { max_size := 500, expected_seq := 3, buffer := [], delivered_count := 3,
    reordered_count := 1, skipped_count := 0, gap_start_time := none,
    last_acked := 2, has_dup_ack_cb := true, dup_ack_count := 1,
    dup_acks_sent := [2] }

/-- C9 counterexample: at a concrete endpoint state the snapshot has no
`fast_retransmits`, `avg_latency_ms` or `delivery_ratio_percent` entry
(the averages are published under `avg_latency` and `delivery_ratio`, and
the channel's fast-retransmit counter is not copied into the snapshot). -/
theorem get_metrics_fields_counterexample :
    alLookup (get_metrics mC9 chC9 rbC9) "fast_retransmits" = none ∧
      alLookup (get_metrics mC9 chC9 rbC9) "avg_latency_ms" = none ∧
      alLookup (get_metrics mC9 chC9 rbC9) "delivery_ratio_percent" = none := by
  rw [get_metrics_eq]
  refine ⟨?_, ?_, ?_⟩ <;> simp [alLookup]

/-- C9 amended: the snapshot contains `reliable_sent`, `unreliable_sent`,
`reliable_received`, `unreliable_received`, `acks_sent`, `acks_received`,
`packets_acked`, `packets_retransmitted`, `packets_failed`,
`total_retry_attempts`, `packets_reordered` and `packets_buffered`, and the
average latency (total latency over sample count, 0 without samples) and
delivery ratio (received over sent times 100, 0 when nothing was sent) are
published under the names `avg_latency` and `delivery_ratio`; it has no
`fast_retransmits`, `avg_latency_ms` or `delivery_ratio_percent` field. -/
theorem get_metrics_fields (m : GameNetMetrics) (ch : ReliableChannel)
    (rb : ReorderBuffer) :
    alLookup (get_metrics m ch rb) "reliable_sent" = some m.reliable_sent ∧
      alLookup (get_metrics m ch rb) "unreliable_sent" = some m.unreliable_sent ∧
      alLookup (get_metrics m ch rb) "reliable_received" = some m.reliable_received ∧
      alLookup (get_metrics m ch rb) "unreliable_received" = some m.unreliable_received ∧
      alLookup (get_metrics m ch rb) "acks_sent" = some m.acks_sent ∧
      alLookup (get_metrics m ch rb) "acks_received" = some m.acks_received ∧
      alLookup (get_metrics m ch rb) "packets_acked" = some ch.stats_acked ∧
      alLookup (get_metrics m ch rb) "packets_retransmitted" =
        some ch.stats_retransmitted ∧
      alLookup (get_metrics m ch rb) "packets_failed" = some ch.stats_failed ∧
      alLookup (get_metrics m ch rb) "total_retry_attempts" =
        some ch.stats_total_retries ∧
      alLookup (get_metrics m ch rb) "packets_reordered" = some rb.reordered_count ∧
      alLookup (get_metrics m ch rb) "packets_buffered" = some rb.buffer.length ∧
      alLookup (get_metrics m ch rb) "avg_latency" =
        some (if 0 < m.latency_count then (m.total_latency : ℚ) / m.latency_count else 0) ∧
      alLookup (get_metrics m ch rb) "delivery_ratio" =
        some (if 0 < m.reliable_sent + m.unreliable_sent then
          ((m.reliable_received : ℚ) + m.unreliable_received) /
            ((m.reliable_sent : ℚ) + m.unreliable_sent) * 100 else 0) ∧
      alLookup (get_metrics m ch rb) "fast_retransmits" = none ∧
      alLookup (get_metrics m ch rb) "avg_latency_ms" = none ∧
      alLookup (get_metrics m ch rb) "delivery_ratio_percent" = none :=
  ⟨rfl, rfl, rfl, rfl, rfl, rfl, rfl, rfl, rfl, rfl, rfl, rfl, rfl, rfl, rfl, rfl, rfl⟩

/-! ## UTF-8 codec lemmas -/

lemma isContByte_true {b : Nat} (h1 : 128 ≤ b) (h2 : b < 192) : isContByte b = true := by
  simp only [isContByte, Bool.and_eq_true, decide_eq_true_eq]
  omega

lemma utf8EncodeChar_eq1 {cp : Nat} (h : cp < 128) : utf8EncodeChar cp = [cp] := by
  unfold utf8EncodeChar
  rw [if_pos h]

lemma utf8EncodeChar_eq2 {cp : Nat} (h1 : ¬cp < 128) (h2 : cp < 2048) :
    utf8EncodeChar cp = [192 + cp / 64, 128 + cp % 64] := by
  unfold utf8EncodeChar
  rw [if_neg h1, if_pos h2]

lemma utf8EncodeChar_eq3 {cp : Nat} (h1 : ¬cp < 2048) (h2 : cp < 65536) :
    utf8EncodeChar cp = [224 + cp / 4096, 128 + cp / 64 % 64, 128 + cp % 64] := by
  unfold utf8EncodeChar
  rw [if_neg (by omega), if_neg h1, if_pos h2]

lemma utf8EncodeChar_eq4 {cp : Nat} (h1 : ¬cp < 65536) :
    utf8EncodeChar cp =
      [240 + cp / 262144, 128 + cp / 4096 % 64, 128 + cp / 64 % 64, 128 + cp % 64] := by
  unfold utf8EncodeChar
  rw [if_neg (by omega), if_neg (by omega), if_neg h1]

lemma utf8DecodeOne_enc1 {cp : Nat} (h : cp < 128) (r : List Nat) :
    utf8DecodeOne cp r = some (cp, r) := by
  unfold utf8DecodeOne
  rw [if_pos h]

lemma utf8DecodeOne_enc2 {cp : Nat} (h1 : 128 ≤ cp) (h2 : cp < 2048) (r : List Nat) :
    utf8DecodeOne (192 + cp / 64) ((128 + cp % 64) :: r) = some (cp, r) := by
  unfold utf8DecodeOne
  rw [if_neg (by omega), if_neg (by omega), if_pos (by omega)]
  dsimp only
  rw [isContByte_true (by omega) (by omega)]
  simp only [if_true]
  rw [show (192 + cp / 64 - 192) * 64 + (128 + cp % 64 - 128) = cp from by omega]

lemma utf8DecodeOne_enc3 {cp : Nat} (h1 : 2048 ≤ cp) (h2 : cp < 65536)
    (hs : ¬(55296 ≤ cp ∧ cp ≤ 57343)) (r : List Nat) :
    utf8DecodeOne (224 + cp / 4096) ((128 + cp / 64 % 64) :: (128 + cp % 64) :: r) =
      some (cp, r) := by
  unfold utf8DecodeOne
  rw [if_neg (by omega), if_neg (by omega), if_neg (by omega), if_pos (by omega)]
  dsimp only
  rw [isContByte_true (by omega) (by omega), isContByte_true (by omega) (by omega)]
  simp only [Bool.and_self, if_true]
  rw [show (224 + cp / 4096 - 224) * 4096 + (128 + cp / 64 % 64 - 128) * 64 +
    (128 + cp % 64 - 128) = cp from by omega]
  rw [if_pos ⟨h1, hs⟩]

lemma utf8DecodeOne_enc4 {cp : Nat} (h1 : 65536 ≤ cp) (h2 : cp < 1114112) (r : List Nat) :
    utf8DecodeOne (240 + cp / 262144)
      ((128 + cp / 4096 % 64) :: (128 + cp / 64 % 64) :: (128 + cp % 64) :: r) =
      some (cp, r) := by
  unfold utf8DecodeOne
  rw [if_neg (by omega), if_neg (by omega), if_neg (by omega), if_neg (by omega),
    if_pos (by omega)]
  dsimp only
  rw [isContByte_true (by omega) (by omega), isContByte_true (by omega) (by omega),
    isContByte_true (by omega) (by omega)]
  simp only [Bool.and_self, if_true]
  rw [show (240 + cp / 262144 - 240) * 262144 + (128 + cp / 4096 % 64 - 128) * 4096 +
    (128 + cp / 64 % 64 - 128) * 64 + (128 + cp % 64 - 128) = cp from by omega]
  rw [if_pos ⟨h1, by omega⟩]

lemma utf8DecodeGo_encode :
    ∀ (s : List Nat) (fuel : Nat), (∀ cp ∈ s, ScalarCp cp) →
      (utf8Encode s).length ≤ fuel → utf8DecodeGo fuel (utf8Encode s) = some s := by
  intro s
  induction s with
  | nil =>
    intro fuel _ _
    cases fuel <;> simp [utf8Encode, utf8DecodeGo]
  | cons cp t ih =>
    intro fuel hsc hf
    obtain ⟨hlt, hns⟩ := hsc cp (List.mem_cons_self _ _)
    have hsc' : ∀ c ∈ t, ScalarCp c := fun c hc => hsc c (List.mem_cons_of_mem _ hc)
    have henc : utf8Encode (cp :: t) = utf8EncodeChar cp ++ utf8Encode t := by
      simp [utf8Encode]
    rw [henc] at hf ⊢
    by_cases hA : cp < 128
    · rw [utf8EncodeChar_eq1 hA] at hf ⊢
      rcases fuel with _ | f
      · simp at hf
      · simp only [List.cons_append, List.nil_append] at hf ⊢
        simp only [utf8DecodeGo, utf8DecodeOne_enc1 hA]
        rw [ih f hsc' (by simp at hf; omega)]
        rfl
    · by_cases hB : cp < 2048
      · rw [utf8EncodeChar_eq2 hA hB] at hf ⊢
        rcases fuel with _ | f
        · simp at hf
        · simp only [List.cons_append, List.nil_append] at hf ⊢
          simp only [utf8DecodeGo, utf8DecodeOne_enc2 (by omega) hB]
          rw [ih f hsc' (by simp at hf; omega)]
          rfl
      · by_cases hC : cp < 65536
        · rw [utf8EncodeChar_eq3 hB hC] at hf ⊢
          rcases fuel with _ | f
          · simp at hf
          · simp only [List.cons_append, List.nil_append] at hf ⊢
            simp only [utf8DecodeGo, utf8DecodeOne_enc3 (by omega) hC hns]
            rw [ih f hsc' (by simp at hf; omega)]
            rfl
        · rw [utf8EncodeChar_eq4 hC] at hf ⊢
          rcases fuel with _ | f
          · simp at hf
          · simp only [List.cons_append, List.nil_append] at hf ⊢
            simp only [utf8DecodeGo, utf8DecodeOne_enc4 (not_lt.mp hC) hlt]
            rw [ih f hsc' (by simp at hf; omega)]
            rfl

/-- Round trip of the UTF-8 codec on scalar payloads. -/
lemma utf8Decode_encode (s : List Nat) (h : ∀ cp ∈ s, ScalarCp cp) :
    utf8Decode (utf8Encode s) = some s :=
  utf8DecodeGo_encode s (utf8Encode s).length h (le_refl _)

/-! ## Sequence-circle distance lemmas -/

/-- Forward distance from `e` to `k` on the 16-bit sequence circle. -/
def distSeq (e k : Nat) : Nat := (k + 65536 - e) % 65536

lemma isAhead_iff_dist {e k : Nat} (he : e < 65536) (hk : k < 65536) :
    isAhead e k = true ↔ 0 < distSeq e k ∧ distSeq e k < 32768 := by
  unfold isAhead
  split <;>
    simp only [distSeq, Bool.and_eq_true, Bool.or_eq_true, decide_eq_true_eq] <;> omega

lemma distSeq_eq_zero_iff {e k : Nat} (he : e < 65536) (hk : k < 65536) :
    distSeq e k = 0 ↔ k = e := by
  simp only [distSeq]; omega

lemma distSeq_succ {e k : Nat} (he : e < 65536) (hk : k < 65536)
    (hne : distSeq e k ≠ 0) : distSeq ((e + 1) % 65536) k = distSeq e k - 1 := by
  simp only [distSeq] at *; omega

/-- C1: `_is_ahead(seq)` with `expected_seq = expected` holds exactly when
the unsigned difference `(seq - expected) mod 65536` lies strictly between
`0` and `32768`. -/
theorem isAhead_iff_mod_window (seq expected : Nat) (hs : seq < 65536)
    (he : expected < 65536) :
    isAhead expected seq = true ↔
      0 < ((seq : ℤ) - expected) % 65536 ∧ ((seq : ℤ) - expected) % 65536 < 32768 := by
  unfold isAhead
  split <;> simp only [Bool.and_eq_true, Bool.or_eq_true, decide_eq_true_eq] <;> omega

/-- Witness for C1 at `seq = 5`, `expected = 3`. -/
theorem isAhead_iff_mod_window_witness :
    isAhead 3 5 = true ↔
      0 < ((5 : ℤ) - 3) % 65536 ∧ ((5 : ℤ) - 3) % 65536 < 32768 :=
  isAhead_iff_mod_window 5 3 (by decide) (by decide)

/-! ## Association-list lemmas -/

lemma mem_alErase {κ α : Type} [DecidableEq κ] {l : List (κ × α)} {k : κ}
    {kv : κ × α} (h : kv ∈ alErase l k) : kv ∈ l ∧ kv.1 ≠ k := by
  induction l with
  | nil => simp [alErase] at h
  | cons hd t ih =>
    obtain ⟨k', v'⟩ := hd
    by_cases hk : k' = k
    · rw [show alErase ((k', v') :: t) k = alErase t k from by simp [alErase, hk]] at h
      obtain ⟨hm, hne⟩ := ih h
      exact ⟨List.mem_cons_of_mem _ hm, hne⟩
    · rw [show alErase ((k', v') :: t) k = (k', v') :: alErase t k from by
        simp [alErase, hk], List.mem_cons] at h
      rcases h with h | h
      · exact ⟨by rw [h]; exact List.mem_cons_self _ _, by rw [h]; exact hk⟩
      · obtain ⟨hm, hne⟩ := ih h
        exact ⟨List.mem_cons_of_mem _ hm, hne⟩

lemma alLookup_eq_none {κ α : Type} [DecidableEq κ] {l : List (κ × α)} {k : κ} :
    alLookup l k = none ↔ ∀ kv ∈ l, kv.1 ≠ k := by
  induction l with
  | nil => simp [alLookup]
  | cons hd t ih =>
    obtain ⟨k', v⟩ := hd
    by_cases hk : k' = k
    · subst hk
      simp [alLookup]
    · simp [alLookup, hk, ih]

lemma alErase_length_le {κ α : Type} [DecidableEq κ] {l : List (κ × α)} {k : κ} :
    (alErase l k).length ≤ l.length := by
  induction l with
  | nil => simp [alErase]
  | cons hd t ih =>
    obtain ⟨k', v'⟩ := hd
    by_cases hk : k' = k <;> simp only [alErase, hk, if_pos, if_neg, ite_true,
      ite_false, List.length_cons] <;> omega

lemma alErase_length_lt {κ α : Type} [DecidableEq κ] {l : List (κ × α)} {k : κ}
    {v : α} (h : alLookup l k = some v) : (alErase l k).length < l.length := by
  induction l with
  | nil => simp [alLookup] at h
  | cons hd t ih =>
    obtain ⟨k', v'⟩ := hd
    by_cases hk : k' = k
    · have hle : (alErase t k).length ≤ t.length := alErase_length_le
      simp only [alErase, hk, ite_true, List.length_cons]
      omega
    · simp only [alLookup, if_neg hk] at h
      have := ih h
      simp only [alErase, hk, ite_false, List.length_cons]
      omega

lemma mem_alSet {κ α : Type} [DecidableEq κ] {l : List (κ × α)} {k : κ} {v : α}
    {kv : κ × α} (h : kv ∈ alSet l k v) : kv ∈ l ∨ kv = (k, v) := by
  induction l with
  | nil => simpa [alSet] using h
  | cons hd t ih =>
    obtain ⟨k', v'⟩ := hd
    by_cases hk : k' = k
    · rw [show alSet ((k', v') :: t) k v = (k, v) :: t from by simp [alSet, hk],
        List.mem_cons] at h
      rcases h with h | h
      · exact Or.inr h
      · exact Or.inl (List.mem_cons_of_mem _ h)
    · rw [show alSet ((k', v') :: t) k v = (k', v') :: alSet t k v from by
        simp [alSet, hk], List.mem_cons] at h
      rcases h with h | h
      · exact Or.inl (by rw [h]; exact List.mem_cons_self _ _)
      · rcases ih h with h' | h'
        · exact Or.inl (List.mem_cons_of_mem _ h')
        · exact Or.inr h'

/-! ## Drain-loop lemmas -/

lemma drainGo_dist_bound {fuel : Nat} :
    ∀ {e : Nat} {buf : List (Nat × GamePacket × ℚ)}, e < 65536 →
      (∀ kv ∈ buf, kv.1 < 65536 ∧ distSeq e kv.1 < 32768) →
      (drainGo fuel e buf).2.1 < 65536 ∧
        ∀ kv ∈ (drainGo fuel e buf).2.2.1,
          kv.1 < 65536 ∧ distSeq (drainGo fuel e buf).2.1 kv.1 < 32768 := by
  induction fuel with
  | zero => intro e buf he hb; exact ⟨he, hb⟩
  | succ fuel ih =>
    intro e buf he hb
    simp only [drainGo]
    cases hl : alLookup buf e with
    | none => exact ⟨he, hb⟩
    | some pv =>
      obtain ⟨pkt, ts⟩ := pv
      have he1 : (e + 1) % 65536 < 65536 := Nat.mod_lt _ (by norm_num)
      have hb1 : ∀ kv ∈ alErase buf e,
          kv.1 < 65536 ∧ distSeq ((e + 1) % 65536) kv.1 < 32768 := by
        intro kv hkv
        obtain ⟨hm, hne⟩ := mem_alErase hkv
        obtain ⟨h1, h2⟩ := hb kv hm
        have hdz : distSeq e kv.1 ≠ 0 := by
          rw [ne_eq, distSeq_eq_zero_iff he h1]
          exact hne
        refine ⟨h1, ?_⟩
        rw [distSeq_succ he h1 hdz]
        omega
      exact ih he1 hb1

lemma drainGo_exit {fuel : Nat} :
    ∀ {e : Nat} {buf : List (Nat × GamePacket × ℚ)}, buf.length ≤ fuel →
      alLookup (drainGo fuel e buf).2.2.1 (drainGo fuel e buf).2.1 = none := by
  induction fuel with
  | zero =>
    intro e buf h
    have hb : buf = [] := List.eq_nil_of_length_eq_zero (Nat.le_zero.mp h)
    subst hb
    simp [drainGo, alLookup]
  | succ fuel ih =>
    intro e buf h
    simp only [drainGo]
    cases hl : alLookup buf e with
    | none => exact hl
    | some pv =>
      obtain ⟨pkt, ts⟩ := pv
      have hlen : (alErase buf e).length ≤ fuel :=
        Nat.le_of_lt_succ (Nat.lt_of_lt_of_le (alErase_length_lt hl) h)
      exact ih hlen

/-- Invariant of C2: `expected_seq` is a 16-bit value and every buffered key
is a 16-bit value classified as ahead of `expected_seq` (hence not equal to
it and not behind it). -/
def RBInv (rb : ReorderBuffer) : Prop :=
  rb.expected_seq < 65536 ∧
    ∀ kv ∈ rb.buffer, kv.1 < 65536 ∧ isAhead rb.expected_seq kv.1 = true

instance (rb : ReorderBuffer) : Decidable (RBInv rb) := by
  unfold RBInv; infer_instance

lemma drain_preserves_ahead {e : Nat} {buf : List (Nat × GamePacket × ℚ)}
    (he : e < 65536) (hb : ∀ kv ∈ buf, kv.1 < 65536 ∧ isAhead e kv.1 = true) :
    (drainGo buf.length ((e + 1) % 65536) buf).2.1 < 65536 ∧
      ∀ kv ∈ (drainGo buf.length ((e + 1) % 65536) buf).2.2.1,
        kv.1 < 65536 ∧
          isAhead (drainGo buf.length ((e + 1) % 65536) buf).2.1 kv.1 = true := by
  have he1 : (e + 1) % 65536 < 65536 := Nat.mod_lt _ (by norm_num)
  have hb1 : ∀ kv ∈ buf, kv.1 < 65536 ∧ distSeq ((e + 1) % 65536) kv.1 < 32768 := by
    intro kv hkv
    obtain ⟨h1, h2⟩ := hb kv hkv
    have hd := (isAhead_iff_dist he h1).mp h2
    refine ⟨h1, ?_⟩
    rw [distSeq_succ he h1 (by omega)]
    omega
  obtain ⟨hE, hB⟩ := drainGo_dist_bound he1 hb1
  have hex := @drainGo_exit buf.length ((e + 1) % 65536) buf (le_refl buf.length)
  refine ⟨hE, fun kv hkv => ?_⟩
  obtain ⟨h1, h2⟩ := hB kv hkv
  have hne : kv.1 ≠ (drainGo buf.length ((e + 1) % 65536) buf).2.1 :=
    alLookup_eq_none.mp hex kv hkv
  have hz := distSeq_eq_zero_iff hE h1
  exact ⟨h1, (isAhead_iff_dist hE h1).mpr ⟨by omega, h2⟩⟩

lemma timeoutSweep_inv {rb : ReorderBuffer} {now : ℚ} (h : RBInv rb) :
    RBInv (rb.timeoutSweep now).2 := by
  obtain ⟨he, hb⟩ := h
  simp only [ReorderBuffer.timeoutSweep]
  split
  · split
    · exact ⟨(drain_preserves_ahead he hb).1, (drain_preserves_ahead he hb).2⟩
    · exact ⟨he, hb⟩
  · exact ⟨he, hb⟩

lemma classify_inv {rb : ReorderBuffer} {now : ℚ} {seq_no : Nat} {pkt : GamePacket}
    (h : RBInv rb) (hs : seq_no < 65536) : RBInv (rb.classify now seq_no pkt).2 := by
  obtain ⟨he, hb⟩ := h
  simp only [ReorderBuffer.classify]
  split
  · exact ⟨(drain_preserves_ahead he hb).1, (drain_preserves_ahead he hb).2⟩
  · split
    · split
      · split
        · rename_i hahead hroom habsent
          have hbuf : ∀ kv ∈ alSet rb.buffer seq_no (pkt, now),
              kv.1 < 65536 ∧ isAhead rb.expected_seq kv.1 = true := by
            intro kv hkv
            rcases mem_alSet hkv with hm | hrfl
            · exact hb kv hm
            · rw [hrfl]
              exact ⟨hs, hahead⟩
          split_ifs <;> exact ⟨he, hbuf⟩
        · exact ⟨he, hb⟩
      · exact ⟨he, hb⟩
    · exact ⟨he, hb⟩

/-- C2: from any state whose buffered keys are all classified ahead of
`expected_seq` (in particular none equals `expected_seq` and none is
behind it), both `add_packet` and `check_timeout` preserve that invariant. -/
theorem reorder_invariant_preserved (rb : ReorderBuffer) (now : ℚ) (seq_no : Nat)
    (pkt : GamePacket) (h : RBInv rb) (hs : seq_no < 65536) :
    RBInv (rb.add_packet now seq_no pkt).2 ∧ RBInv (rb.check_timeout now).2 := by
  constructor
  · exact classify_inv (timeoutSweep_inv h) hs
  · exact timeoutSweep_inv h

def rbW : ReorderBuffer :=
  { max_size := 500, expected_seq := 0, buffer := [(2, ⟨0, 2, [104, 105], 9⟩, 1)],
    delivered_count := 0, reordered_count := 0, skipped_count := 0,
    gap_start_time := some 1, last_acked := -1, has_dup_ack_cb := true,
    dup_ack_count := 0, dup_acks_sent := [] }

/-- Witness for C2 at a concrete buffered state. -/
theorem reorder_invariant_preserved_witness :
    RBInv rbW ∧ RBInv (rbW.add_packet 2 5 ⟨0, 5, [], 9⟩).2 ∧
      RBInv (rbW.check_timeout 2).2 :=
  ⟨by decide, (reorder_invariant_preserved rbW 2 5 ⟨0, 5, [], 9⟩ (by decide) (by decide)).1,
   (reorder_invariant_preserved rbW 2 5 ⟨0, 5, [], 9⟩ (by decide) (by decide)).2⟩

/-- C7: `check_timeout` is exactly step 1 of `add_packet`: it equals the
timeout sweep that opens `add_packet` (same drained frames, same post-state
in every field), and `add_packet` is that sweep followed by
classification of the new packet. -/
theorem check_timeout_is_add_packet_step1 (rb : ReorderBuffer) (now : ℚ)
    (seq_no : Nat) (pkt : GamePacket) :
    rb.check_timeout now = rb.timeoutSweep now ∧
      (rb.add_packet now seq_no pkt).1 =
        (rb.check_timeout now).1 ++
          ((rb.check_timeout now).2.classify now seq_no pkt).1 ∧
      (rb.add_packet now seq_no pkt).2 =
        ((rb.check_timeout now).2.classify now seq_no pkt).2 :=
  ⟨rfl, rfl, rfl⟩

/-- C8: while the gap timeout has not expired, a packet classified as
behind `expected_seq` is discarded: `add_packet` returns the empty delivery
list and the state is unchanged in every field. -/
theorem behind_packet_no_effect (rb : ReorderBuffer) (now : ℚ) (seq_no : Nat)
    (pkt : GamePacket)
    (hgap : rb.gap_start_time = none ∨
      ∀ g, rb.gap_start_time = some g → now - g < REORDER_TIMEOUT)
    (hne : seq_no ≠ rb.expected_seq)
    (hnot : isAhead rb.expected_seq seq_no = false) :
    rb.add_packet now seq_no pkt = ([], rb) := by
  have hsweep : rb.timeoutSweep now = ([], rb) := by
    rcases hgap with h | h
    · unfold ReorderBuffer.timeoutSweep
      rw [h]
    · unfold ReorderBuffer.timeoutSweep
      cases hgg : rb.gap_start_time with
      | none => rfl
      | some g =>
        have hlt := h g hgg
        dsimp only
        split
        · rename_i hc
          exact absurd hc.2 (not_le.mpr hlt)
        · rfl
  have hcls : rb.classify now seq_no pkt = ([], rb) := by
    unfold ReorderBuffer.classify
    rw [if_neg hne, if_neg (by simp [hnot])]
  simp [ReorderBuffer.add_packet, hsweep, hcls]

def rbB : ReorderBuffer :=
  { max_size := 500, expected_seq := 5, buffer := [], delivered_count := 5,
    reordered_count := 0, skipped_count := 0, gap_start_time := none,
    last_acked := 4, has_dup_ack_cb := true, dup_ack_count := 0,
    dup_acks_sent := [] }

/-- Witness for C8: a late duplicate of the already-delivered frame 3. -/
theorem behind_packet_no_effect_witness :
    isAhead rbB.expected_seq 3 = false ∧ rbB.add_packet 1 3 ⟨0, 3, [], 9⟩ = ([], rbB) :=
  ⟨by decide, behind_packet_no_effect rbB 1 3 ⟨0, 3, [], 9⟩ (Or.inl rfl)
    (by decide) (by decide)⟩

/-- C10: `reset` zeroes `expected_seq`, the buffer, `delivered_count` and
`reordered_count` but leaves `skipped_count`, `gap_start_time`,
`last_acked` and `dup_ack_count` untouched; in particular a gap timer that
was running and has expired still triggers a skip of the fresh
`expected_seq = 0` right after the reset. -/
theorem reset_effect (rb : ReorderBuffer) (now g : ℚ)
    (hg : rb.gap_start_time = some g) (hg0 : g ≠ 0)
    (ht : REORDER_TIMEOUT ≤ now - g) :
    rb.reset =
        { rb with
          expected_seq := 0
          buffer := []
          delivered_count := 0
          reordered_count := 0 } ∧
      ((rb.reset).check_timeout now).2.skipped_count = rb.skipped_count + 1 ∧
      ((rb.reset).check_timeout now).2.expected_seq = 1 := by
  refine ⟨rfl, ?_, ?_⟩ <;>
    simp [ReorderBuffer.check_timeout, ReorderBuffer.reset, hg, hg0, ht, drainGo]

def rbR : ReorderBuffer :=
  { max_size := 500, expected_seq := 7, buffer := [(9, ⟨0, 9, [], 9⟩, 1)],
    delivered_count := 7, reordered_count := 1, skipped_count := 2,
    gap_start_time := some 1, last_acked := 6, has_dup_ack_cb := true,
    dup_ack_count := 3, dup_acks_sent := [6] }

/-- C5 counterexample: on a 8-byte datagram whose payload byte `0x80` is
not valid UTF-8, `from_bytes` raises `UnicodeDecodeError` instead of
returning the failure value `None`. -/
theorem from_bytes_invalid_utf8_counterexample :
    GamePacket.from_bytes [0, 0, 0, 0, 0, 0, 0, 128] = .raises ∧
      GamePacket.from_bytes [0, 0, 0, 0, 0, 0, 0, 128] ≠ .nothing := by
  decide

/-- C5 amended: `from_bytes` returns the failure value `None` when the
datagram is shorter than `HEADER_SIZE`; when the bytes after the 7-byte
header are not valid UTF-8 it does not return a frame either, but it raises
`UnicodeDecodeError` (caught by the receive worker) rather than returning a
failure value. -/
theorem from_bytes_failure_modes (data : List Nat) :
    (data.length < HEADER_SIZE → GamePacket.from_bytes data = .nothing) ∧
    (HEADER_SIZE ≤ data.length → utf8Decode (data.drop HEADER_SIZE) = none →
      GamePacket.from_bytes data = .raises) := by
  constructor
  · intro h
    simp [GamePacket.from_bytes, h]
  · intro h hu
    simp [GamePacket.from_bytes, Nat.not_lt.mpr h, hu]

/-- Witness for the amended C5: a short datagram and an invalid-UTF-8 one. -/
theorem from_bytes_failure_modes_witness :
    GamePacket.from_bytes [1, 2] = .nothing ∧
      GamePacket.from_bytes [0, 1, 2, 3, 4, 5, 6, 255] = .raises :=
  ⟨(from_bytes_failure_modes [1, 2]).1 (by decide),
   (from_bytes_failure_modes [0, 1, 2, 3, 4, 5, 6, 255]).2 (by decide) (by decide)⟩

/-- C6: codec round trip.  For a frame whose channel fits a byte, whose seq
is 16-bit, whose timestamp is 32-bit and whose payload consists of Unicode
scalar values, decoding the encoding succeeds and returns an equal frame,
and the 7-byte header carries seq and timestamp big-endian. -/
theorem codec_roundtrip (p : GamePacket) (hc : p.channel_type < 256)
    (hs : p.seq_no < 65536) (ht : p.timestamp < 4294967296)
    (hp : ∀ cp ∈ p.payload, ScalarCp cp) :
    GamePacket.from_bytes (GamePacket.to_bytes p) = .ok p ∧
      (GamePacket.to_bytes p).take 7 =
        [p.channel_type, p.seq_no / 256, p.seq_no % 256,
         p.timestamp / 16777216, p.timestamp / 65536 % 256,
         p.timestamp / 256 % 256, p.timestamp % 256] := by
  obtain ⟨c, s, pl, t⟩ := p
  dsimp only at hc hs ht hp ⊢
  have hbytes : GamePacket.to_bytes ⟨c, s, pl, t⟩ =
      c :: (s / 256 % 256) :: (s % 256) :: (t / 16777216 % 256) :: (t / 65536 % 256) ::
        (t / 256 % 256) :: (t % 256) :: utf8Encode pl := by
    simp [GamePacket.to_bytes]
  constructor
  · have hlen : ¬(GamePacket.to_bytes ⟨c, s, pl, t⟩).length < HEADER_SIZE := by
      rw [hbytes]
      simp [HEADER_SIZE]
    have hdrop : (GamePacket.to_bytes ⟨c, s, pl, t⟩).drop HEADER_SIZE = utf8Encode pl := by
      rw [hbytes]
      rfl
    unfold GamePacket.from_bytes
    rw [if_neg hlen, hdrop, utf8Decode_encode pl hp]
    dsimp only
    rw [hbytes]
    simp only [List.getD_cons_zero, List.getD_cons_succ]
    simp only [FromBytesResult.ok.injEq, GamePacket.mk.injEq, true_and, and_true]
    exact ⟨by omega, by omega⟩
  · rw [hbytes]
    rw [show (c :: (s / 256 % 256) :: (s % 256) :: (t / 16777216 % 256) ::
        (t / 65536 % 256) :: (t / 256 % 256) :: (t % 256) :: utf8Encode pl).take 7 =
      [c, s / 256 % 256, s % 256, t / 16777216 % 256, t / 65536 % 256,
       t / 256 % 256, t % 256] from rfl]
    simp only [List.cons.injEq, and_true, true_and]
    exact ⟨by omega, by omega⟩

/-- Witness for C6 at a concrete frame with a multi-byte payload. -/
theorem codec_roundtrip_witness :
    GamePacket.from_bytes (GamePacket.to_bytes ⟨0, 513, [104, 233], 7⟩) =
      FromBytesResult.ok ⟨0, 513, [104, 233], 7⟩ :=
  (codec_roundtrip ⟨0, 513, [104, 233], 7⟩ (by decide) (by decide) (by decide)
    (by decide)).1

/-! ## Reliable-channel lemmas -/

lemma alLookup_alSet_self {κ α : Type} [DecidableEq κ] (l : List (κ × α)) (k : κ)
    (v : α) : alLookup (alSet l k v) k = some v := by
  induction l with
  | nil => simp [alSet, alLookup]
  | cons hd t ih =>
    obtain ⟨k', v'⟩ := hd
    by_cases hk : k' = k
    · simp [alSet, alLookup, hk]
    · simp [alSet, alLookup, hk, ih]

lemma alLookup_alSet_ne {κ α : Type} [DecidableEq κ] (l : List (κ × α)) {k k' : κ}
    (v : α) (h : k' ≠ k) : alLookup (alSet l k v) k' = alLookup l k' := by
  have hne : ¬(k = k') := fun he => h he.symm
  induction l with
  | nil => simp [alSet, alLookup, hne]
  | cons hd t ih =>
    obtain ⟨k0, v0⟩ := hd
    by_cases hk : k0 = k
    · subst hk
      simp [alSet, alLookup, hne]
    · simp [alSet, alLookup, hk, ih]

/-- C4: full characterization of `handle_duplicate_ack`.  The duplicate-ACK
count for `ack` is always bumped (created at `0` when absent); when the new
count reaches `DUP_ACK_THRESHOLD` and `(ack + 1) % 65536` is pending,
unacked and under the retry budget, the stored bytes are resent, its
`retry_count` is bumped, its `send_time` becomes `now`, the
`fast_retransmits`, `retransmitted` and `total_retries` statistics each grow
by one and the duplicate count resets to `0`; otherwise nothing is sent and
no pending entry changes. -/
theorem handle_duplicate_ack_spec (ch : ReliableChannel) (now : ℚ) (ack : Nat) :
    ((alLookup ch.dup_ack_count ack).getD 0 + 1 < DUP_ACK_THRESHOLD →
      ch.handle_duplicate_ack now ack =
        ({ ch with dup_ack_count := alSet ch.dup_ack_count ack ((alLookup ch.dup_ack_count ack).getD 0 + 1) }, [])) ∧
    (∀ p, DUP_ACK_THRESHOLD ≤ (alLookup ch.dup_ack_count ack).getD 0 + 1 →
      alLookup ch.pending_packets ((ack + 1) % 65536) = some p →
      p.acked = false → p.retry_count < MAX_RETRANSMITS →
      (ch.handle_duplicate_ack now ack).2 = [(p.packet_data, p.destination)] ∧
        (ch.handle_duplicate_ack now ack).1.pending_packets =
          alSet ch.pending_packets ((ack + 1) % 65536)
            { p with retry_count := p.retry_count + 1, send_time := now } ∧
        (ch.handle_duplicate_ack now ack).1.stats_fast_retransmits =
          ch.stats_fast_retransmits + 1 ∧
        (ch.handle_duplicate_ack now ack).1.stats_retransmitted =
          ch.stats_retransmitted + 1 ∧
        (ch.handle_duplicate_ack now ack).1.stats_total_retries =
          ch.stats_total_retries + 1 ∧
        alLookup (ch.handle_duplicate_ack now ack).1.dup_ack_count ack = some 0) ∧
    (DUP_ACK_THRESHOLD ≤ (alLookup ch.dup_ack_count ack).getD 0 + 1 →
      (alLookup ch.pending_packets ((ack + 1) % 65536) = none ∨
        ∃ p, alLookup ch.pending_packets ((ack + 1) % 65536) = some p ∧
          (p.acked = true ∨ MAX_RETRANSMITS ≤ p.retry_count)) →
      (ch.handle_duplicate_ack now ack).2 = [] ∧
        (ch.handle_duplicate_ack now ack).1.pending_packets = ch.pending_packets ∧
        (ch.handle_duplicate_ack now ack).1.stats_fast_retransmits =
          ch.stats_fast_retransmits ∧
        (ch.handle_duplicate_ack now ack).1.stats_retransmitted =
          ch.stats_retransmitted ∧
        (ch.handle_duplicate_ack now ack).1.stats_total_retries =
          ch.stats_total_retries ∧
        alLookup (ch.handle_duplicate_ack now ack).1.dup_ack_count ack =
          some ((alLookup ch.dup_ack_count ack).getD 0 + 1)) := by
  refine ⟨?_, ?_, ?_⟩
  · intro hlt
    simp only [ReliableChannel.handle_duplicate_ack]
    rw [if_neg (not_le.mpr hlt)]
  · intro p h3 hp hacked hretry
    simp only [ReliableChannel.handle_duplicate_ack]
    rw [if_pos h3, hp]
    dsimp only
    rw [if_pos ⟨hacked, hretry⟩]
    exact ⟨rfl, rfl, rfl, rfl, rfl, alLookup_alSet_self _ _ _⟩
  · intro h3 hcase
    simp only [ReliableChannel.handle_duplicate_ack]
    rw [if_pos h3]
    rcases hcase with hnone | ⟨p, hp, hbad⟩
    · rw [hnone]
      exact ⟨rfl, rfl, rfl, rfl, rfl, alLookup_alSet_self _ _ _⟩
    · rw [hp]
      dsimp only
      rw [if_neg]
      · exact ⟨rfl, rfl, rfl, rfl, rfl, alLookup_alSet_self _ _ _⟩
      · rintro ⟨ha, hr⟩
        rcases hbad with hb | hb
        · rw [hb] at ha
          cases ha
        · exact absurd hb (not_le.mpr hr)

/-- Unfolding of `sweepPending` on a cons cell. -/
lemma sweepPending_cons (now : ℚ) (seq : Nat) (p : PendingPacket)
    (t : List (Nat × PendingPacket)) :
    sweepPending now ((seq, p) :: t) =
      if p.acked then
        ((seq, p) :: (sweepPending now t).1, (sweepPending now t).2.1,
         (sweepPending now t).2.2.1, (sweepPending now t).2.2.2)
      else if RETRANSMIT_TIMEOUT ≤ now - p.send_time then
        if p.retry_count < MAX_RETRANSMITS then
          ((seq, { p with retry_count := p.retry_count + 1, send_time := now }) ::
             (sweepPending now t).1,
           (p.packet_data, p.destination) :: (sweepPending now t).2.1,
           (sweepPending now t).2.2.1, (sweepPending now t).2.2.2 + 1)
        else
          ((sweepPending now t).1, (sweepPending now t).2.1,
           (sweepPending now t).2.2.1 + 1, (sweepPending now t).2.2.2)
      else
        ((seq, p) :: (sweepPending now t).1, (sweepPending now t).2.1,
         (sweepPending now t).2.2.1, (sweepPending now t).2.2.2) := rfl

/-- Invariant of C3: every pending entry is within the retry budget. -/
def ChInv (ch : ReliableChannel) : Prop :=
  ∀ kv ∈ ch.pending_packets, kv.2.retry_count ≤ MAX_RETRANSMITS

instance (ch : ReliableChannel) : Decidable (ChInv ch) := by
  unfold ChInv; infer_instance

lemma sweepPending_retry_le (now : ℚ) :
    ∀ l : List (Nat × PendingPacket),
      (∀ kv ∈ l, kv.2.retry_count ≤ MAX_RETRANSMITS) →
      ∀ kv ∈ (sweepPending now l).1, kv.2.retry_count ≤ MAX_RETRANSMITS := by
  intro l
  induction l with
  | nil =>
    intro _ kv hkv
    simp [sweepPending] at hkv
  | cons hd t ih =>
    obtain ⟨seq, p⟩ := hd
    intro h kv hkv
    have hh := h (seq, p) (List.mem_cons_self _ _)
    have ht : ∀ kv ∈ t, kv.2.retry_count ≤ MAX_RETRANSMITS :=
      fun kv hk => h kv (List.mem_cons_of_mem _ hk)
    rw [sweepPending_cons] at hkv
    by_cases ha : p.acked = true
    · rw [if_pos ha] at hkv
      rcases List.mem_cons.mp hkv with h' | h'
      · rw [h']; exact hh
      · exact ih ht kv h'
    · rw [if_neg ha] at hkv
      by_cases he : RETRANSMIT_TIMEOUT ≤ now - p.send_time
      · rw [if_pos he] at hkv
        by_cases hr : p.retry_count < MAX_RETRANSMITS
        · rw [if_pos hr] at hkv
          rcases List.mem_cons.mp hkv with h' | h'
          · rw [h']; dsimp; omega
          · exact ih ht kv h'
        · rw [if_neg hr] at hkv
          exact ih ht kv hkv
      · rw [if_neg he] at hkv
        rcases List.mem_cons.mp hkv with h' | h'
        · rw [h']; exact hh
        · exact ih ht kv h'

lemma handle_dup_ack_retry_le {ch : ReliableChannel} {now : ℚ} {ack : Nat}
    (h : ChInv ch) : ChInv (ch.handle_duplicate_ack now ack).1 := by
  unfold ChInv at h ⊢
  simp only [ReliableChannel.handle_duplicate_ack]
  split
  · split
    · split
      · rename_i p hp hcond
        intro kv hkv
        rcases mem_alSet hkv with hm | hrfl
        · exact h kv hm
        · rw [hrfl]
          dsimp
          have := hcond.2
          omega
      · exact h
    · exact h
  · exact h

lemma sweepPending_keys {now : ℚ} :
    ∀ {l : List (Nat × PendingPacket)} {kv : Nat × PendingPacket},
      kv ∈ (sweepPending now l).1 → kv.1 ∈ l.map Prod.fst := by
  intro l
  induction l with
  | nil =>
    intro kv hkv
    simp [sweepPending] at hkv
  | cons hd t ih =>
    obtain ⟨seq, p⟩ := hd
    intro kv hkv
    rw [sweepPending_cons] at hkv
    by_cases ha : p.acked = true
    · rw [if_pos ha] at hkv
      rcases List.mem_cons.mp hkv with h' | h'
      · rw [h']; exact List.mem_cons_self _ _
      · exact List.mem_cons_of_mem _ (ih h')
    · rw [if_neg ha] at hkv
      by_cases he : RETRANSMIT_TIMEOUT ≤ now - p.send_time
      · rw [if_pos he] at hkv
        by_cases hr : p.retry_count < MAX_RETRANSMITS
        · rw [if_pos hr] at hkv
          rcases List.mem_cons.mp hkv with h' | h'
          · rw [h']; exact List.mem_cons_self _ _
          · exact List.mem_cons_of_mem _ (ih h')
        · rw [if_neg hr] at hkv
          exact List.mem_cons_of_mem _ (ih hkv)
      · rw [if_neg he] at hkv
        rcases List.mem_cons.mp hkv with h' | h'
        · rw [h']; exact List.mem_cons_self _ _
        · exact List.mem_cons_of_mem _ (ih h')

lemma sweepPending_lookup_none {now : ℚ} {l : List (Nat × PendingPacket)}
    {seq : Nat} (h : seq ∉ l.map Prod.fst) :
    alLookup (sweepPending now l).1 seq = none := by
  rw [alLookup_eq_none]
  intro kv hkv heq
  exact h (heq ▸ sweepPending_keys hkv)

lemma sweepPending_lookup {now : ℚ} :
    ∀ {l : List (Nat × PendingPacket)}, (l.map Prod.fst).Nodup →
      ∀ {seq : Nat} {p : PendingPacket}, alLookup l seq = some p →
      p.acked = false → RETRANSMIT_TIMEOUT ≤ now - p.send_time →
      (p.retry_count < MAX_RETRANSMITS →
        alLookup (sweepPending now l).1 seq =
          some { p with retry_count := p.retry_count + 1, send_time := now } ∧
        (p.packet_data, p.destination) ∈ (sweepPending now l).2.1) ∧
      (MAX_RETRANSMITS ≤ p.retry_count →
        alLookup (sweepPending now l).1 seq = none ∧
        1 ≤ (sweepPending now l).2.2.1) := by
  intro l
  induction l with
  | nil =>
    intro _ seq p hp
    simp [alLookup] at hp
  | cons hd t ih =>
    obtain ⟨k, q⟩ := hd
    intro hnd seq p hp hacked helap
    obtain ⟨hnk, hndt⟩ := List.nodup_cons.mp hnd
    rw [sweepPending_cons]
    by_cases hk : k = seq
    · subst hk
      rw [show alLookup ((k, q) :: t) k = some q from by simp [alLookup]] at hp
      injection hp with hqp
      subst hqp
      rw [if_neg (by simp [hacked]), if_pos helap]
      refine ⟨fun hr => ?_, fun hr => ?_⟩
      · rw [if_pos hr]
        exact ⟨by simp [alLookup], List.mem_cons_self _ _⟩
      · rw [if_neg (not_lt.mpr hr)]
        exact ⟨sweepPending_lookup_none hnk, Nat.le_add_left _ _⟩
    · have hp' : alLookup t seq = some p := by
        simpa [alLookup, hk] using hp
      have IH := ih hndt hp' hacked helap
      by_cases ha : q.acked = true
      · rw [if_pos ha]
        exact ⟨fun hr => ⟨by simpa [alLookup, hk] using (IH.1 hr).1, (IH.1 hr).2⟩,
          fun hr => ⟨by simpa [alLookup, hk] using (IH.2 hr).1, (IH.2 hr).2⟩⟩
      · rw [if_neg ha]
        by_cases he : RETRANSMIT_TIMEOUT ≤ now - q.send_time
        · rw [if_pos he]
          by_cases hr' : q.retry_count < MAX_RETRANSMITS
          · rw [if_pos hr']
            exact ⟨fun hr => ⟨by simpa [alLookup, hk] using (IH.1 hr).1,
                List.mem_cons_of_mem _ (IH.1 hr).2⟩,
              fun hr => ⟨by simpa [alLookup, hk] using (IH.2 hr).1, (IH.2 hr).2⟩⟩
          · rw [if_neg hr']
            exact ⟨fun hr => ⟨(IH.1 hr).1, (IH.1 hr).2⟩,
              fun hr => ⟨(IH.2 hr).1, by dsimp only; omega⟩⟩
        · rw [if_neg he]
          exact ⟨fun hr => ⟨by simpa [alLookup, hk] using (IH.1 hr).1, (IH.1 hr).2⟩,
            fun hr => ⟨by simpa [alLookup, hk] using (IH.2 hr).1, (IH.2 hr).2⟩⟩

/-- C3: the retry budget.  `retry_count ≤ MAX_RETRANSMITS` is preserved by
the retransmission-timer sweep and by `handle_duplicate_ack` (so a frame is
sent at most `1 + MAX_RETRANSMITS` times); an unacked entry whose timeout
has elapsed is resent with `retry_count` bumped when under the budget, and
is removed with the `failed` statistic bumped when the budget is exhausted;
the fast-retransmit path refuses to resend an entry at the budget and bumps
`retry_count` whenever it does resend. -/
theorem retry_budget_bound (ch : ReliableChannel) (now : ℚ) (ack seq : Nat)
    (p : PendingPacket) :
    (ChInv ch → ChInv (ch.timerSweep now).1 ∧
      ChInv (ch.handle_duplicate_ack now ack).1) ∧
    ((ch.pending_packets.map Prod.fst).Nodup →
      alLookup ch.pending_packets seq = some p → p.acked = false →
      RETRANSMIT_TIMEOUT ≤ now - p.send_time →
      (p.retry_count < MAX_RETRANSMITS →
        alLookup (ch.timerSweep now).1.pending_packets seq =
          some { p with retry_count := p.retry_count + 1, send_time := now } ∧
        (p.packet_data, p.destination) ∈ (ch.timerSweep now).2) ∧
      (MAX_RETRANSMITS ≤ p.retry_count →
        alLookup (ch.timerSweep now).1.pending_packets seq = none ∧
        ch.stats_failed + 1 ≤ (ch.timerSweep now).1.stats_failed)) ∧
    (alLookup ch.pending_packets ((ack + 1) % 65536) = some p →
      p.acked = false → MAX_RETRANSMITS ≤ p.retry_count →
      (ch.handle_duplicate_ack now ack).2 = [] ∧
        (ch.handle_duplicate_ack now ack).1.pending_packets =
          ch.pending_packets) ∧
    (DUP_ACK_THRESHOLD ≤ (alLookup ch.dup_ack_count ack).getD 0 + 1 →
      alLookup ch.pending_packets ((ack + 1) % 65536) = some p →
      p.acked = false → p.retry_count < MAX_RETRANSMITS →
      alLookup (ch.handle_duplicate_ack now ack).1.pending_packets ((ack + 1) % 65536) =
        some { p with retry_count := p.retry_count + 1, send_time := now } ∧
      (ch.handle_duplicate_ack now ack).2 = [(p.packet_data, p.destination)]) := by
  refine ⟨fun h => ⟨sweepPending_retry_le now ch.pending_packets h, handle_dup_ack_retry_le h⟩,
    fun hnd hp hacked helap => ?_, fun hp hacked hexh => ?_,
    fun h3 hp hacked hretry => ?_⟩
  · have H := sweepPending_lookup hnd hp hacked helap
    exact ⟨fun hr => ⟨(H.1 hr).1, (H.1 hr).2⟩,
      fun hr => ⟨(H.2 hr).1, by have := (H.2 hr).2; dsimp [ReliableChannel.timerSweep]; omega⟩⟩
  · simp only [ReliableChannel.handle_duplicate_ack]
    split
    · rw [hp]
      dsimp only
      rw [if_neg (fun hc => absurd hexh (not_le.mpr hc.2))]
      exact ⟨rfl, rfl⟩
    · exact ⟨rfl, rfl⟩
  · simp only [ReliableChannel.handle_duplicate_ack]
    rw [if_pos h3, hp]
    dsimp only
    rw [if_pos ⟨hacked, hretry⟩]
    exact ⟨alLookup_alSet_self _ _ _, rfl⟩

def pLow : PendingPacket :=
  { packet_data := [0, 0, 4, 0, 0, 0, 9], seq_no := 4, destination := 1,
    send_time := 0, retry_count := 3, acked := false }

def pHigh : PendingPacket :=
  { packet_data := [0, 0, 9, 0, 0, 0, 9], seq_no := 9, destination := 1,
    send_time := 0, retry_count := 12, acked := false }

def chT : ReliableChannel :=
  { pending_packets := [(4, pLow), (9, pHigh)], dup_ack_count := [(3, 2)],
    stats_sent := 2, stats_acked := 0, stats_retransmitted := 3,
    stats_failed := 0, stats_total_retries := 3, stats_fast_retransmits := 0 }

/-- Witness for C3: one entry under budget is resent by the timer, one at
the budget is dropped as failed, and the third duplicate ACK for 3
fast-retransmits entry 4 with its retry count bumped. -/
theorem retry_budget_bound_witness :
    ChInv (chT.timerSweep 1).1 ∧
      alLookup (chT.timerSweep 1).1.pending_packets 4 =
        some { pLow with retry_count := 4, send_time := 1 } ∧
      alLookup (chT.timerSweep 1).1.pending_packets 9 = none ∧
      chT.stats_failed + 1 ≤ (chT.timerSweep 1).1.stats_failed ∧
      alLookup (chT.handle_duplicate_ack 1 3).1.pending_packets 4 =
        some { pLow with retry_count := 4, send_time := 1 } :=
  ⟨((retry_budget_bound chT 1 0 4 pLow).1 (by decide)).1,
   (((retry_budget_bound chT 1 0 4 pLow).2.1 (by decide) (by decide) (by decide)
       (by norm_num [RETRANSMIT_TIMEOUT, pLow])).1 (by decide)).1,
   (((retry_budget_bound chT 1 0 9 pHigh).2.1 (by decide) (by decide) (by decide)
       (by norm_num [RETRANSMIT_TIMEOUT, pHigh])).2 (by decide)).1,
   (((retry_budget_bound chT 1 0 9 pHigh).2.1 (by decide) (by decide) (by decide)
       (by norm_num [RETRANSMIT_TIMEOUT, pHigh])).2 (by decide)).2,
   ((retry_budget_bound chT 1 3 4 pLow).2.2.2 (by decide) (by decide) (by decide)
       (by decide)).1⟩

def chD : ReliableChannel :=
  { pending_packets := [(8, ⟨[0, 0, 8, 0, 0, 0, 9], 8, 1, 0, 2, false⟩)],
    dup_ack_count := [(7, 2)], stats_sent := 9, stats_acked := 7,
    stats_retransmitted := 1, stats_failed := 0, stats_total_retries := 1,
    stats_fast_retransmits := 0 }

/-- Witness for C4: the third duplicate ACK for 7 fast-retransmits 8. -/
theorem handle_duplicate_ack_spec_witness :
    (chD.handle_duplicate_ack 4 7).2 = [([0, 0, 8, 0, 0, 0, 9], 1)] ∧
      alLookup (chD.handle_duplicate_ack 4 7).1.dup_ack_count 7 = some 0 :=
  ⟨((handle_duplicate_ack_spec chD 4 7).2.1 ⟨[0, 0, 8, 0, 0, 0, 9], 8, 1, 0, 2, false⟩
      (by decide) (by decide) (by decide) (by decide)).1,
   (((handle_duplicate_ack_spec chD 4 7).2.1 ⟨[0, 0, 8, 0, 0, 0, 9], 8, 1, 0, 2, false⟩
      (by decide) (by decide) (by decide) (by decide)).2.2.2.2.2)⟩

/-- Witness for C10 at a concrete state with an expired gap timer. -/
theorem reset_effect_witness :
    rbR.reset =
        { rbR with
          expected_seq := 0
          buffer := []
          delivered_count := 0
          reordered_count := 0 } ∧
      ((rbR.reset).check_timeout 5).2.skipped_count = rbR.skipped_count + 1 ∧
      ((rbR.reset).check_timeout 5).2.expected_seq = 1 :=
  reset_effect rbR 5 1 rfl (by norm_num) (by norm_num [REORDER_TIMEOUT])
